import Mathlib

/-!
Verification of the AS3935 lightning-monitor firmware core
(`src/main.cpp`): the bounded event history, its trim / query /
statistics operations, the interrupt and poll ingestion phases of
`loop()`, the query-parameter fallbacks, and the LED lookup table.

The C++ globals (`history`, `lastDistance`, `lastEnergy`,
`lastEventTs`, `lastEvent`, `AS3935_irq`, `irqFlag`, `tLastPoll`) are
embedded as fields of an explicit state record; the `std::deque` is a
`List` with the oldest entry at the head (`pop_front` = drop the head,
`push_back` = append at the tail).  Machine integers are `Nat` / `Int`
with explicit `% 2^32` where uint32 wraparound matters.
-/

namespace LightningSensor

/-- Embedding of `struct LightningEvent` from main.cpp: timestamp (time_t),
distance (uint8_t), energy (uint32_t), raw interrupt-source code
(uint32_t), and whether the reading came from the interrupt path. -/
structure LightningEvent where
  ts : Int
  distance : Nat
  energy : Nat
  event : Nat
  irq : Bool
  deriving Repr, DecidableEq

/-- Embedding of `static const size_t HISTORY_MAX = 2000;`. -/
def HISTORY_MAX : Nat := 2000

/-- The append idiom used at both call sites in `loop()`:
`if (history.size() >= cap) history.pop_front(); history.push_back(e);`
with the capacity as a parameter. -/
def appendHistoryCap (cap : Nat) (h : List LightningEvent) (e : LightningEvent) :
    List LightningEvent :=
  if cap ≤ h.length then h.drop 1 ++ [e] else h ++ [e]

/-- The append as performed in `loop()` with the fixed `HISTORY_MAX`. -/
def appendHistory (h : List LightningEvent) (e : LightningEvent) :
    List LightningEvent :=
  appendHistoryCap HISTORY_MAX h e

/-- Embedding of `trimHistoryOlderThan(cutoff)`:
`while (!history.empty() && history.front().ts < cutoff) history.pop_front();` -/
def trimHistoryOlderThan (cutoff : Int) : List LightningEvent → List LightningEvent
  | [] => []
  | e :: rest => if e.ts < cutoff then trimHistoryOlderThan cutoff rest else e :: rest

/-- The event list built by `handleEvents`: iterate from `rbegin` to
`rend`, `break` at the first entry with `ts < cutoff`, collect the
others in traversal (most-recent-first) order, where
`cutoff = now - sinceSec`. -/
def handleEventsList (h : List LightningEvent) (now sinceSec : Int) :
    List LightningEvent :=
  h.reverse.takeWhile (fun e => !(decide (e.ts < now - sinceSec)))

/-- The five counters computed by `handleStats` over the whole history:
total count, near (≤5), mid (≤15), far (rest), out-of-range (==63);
entries with `ts < cutoff` are skipped by `continue`. -/
structure StatsCounts where
  cnt : Nat
  near : Nat
  mid : Nat
  far : Nat
  oor : Nat
  deriving Repr, DecidableEq

/-- The classification step of the `handleStats` loop body for one
in-window entry. -/
def statsBucketStep (c : StatsCounts) (e : LightningEvent) : StatsCounts :=
  let c := { c with cnt := c.cnt + 1 }
  if e.distance = 63 then { c with oor := c.oor + 1 }
  else if e.distance ≤ 5 then { c with near := c.near + 1 }
  else if e.distance ≤ 15 then { c with mid := c.mid + 1 }
  else { c with far := c.far + 1 }

/-- The `handleStats` scan: `for (const auto &e : history) { if (e.ts <
cutoff) continue; ... }` with `cutoff = now - sinceSec`. -/
def handleStatsCounts (h : List LightningEvent) (now sinceSec : Int) : StatsCounts :=
  h.foldl
    (fun c e => if e.ts < now - sinceSec then c else statsBucketStep c e)
    ⟨0, 0, 0, 0, 0⟩

/-- The mutable globals touched by `loop()` in main.cpp. -/
structure SysState where
  history : List LightningEvent
  lastDistance : Nat
  lastEnergy : Nat
  lastEventTs : Int
  lastEvent : Nat
  as3935Irq : Bool
  irqFlag : Bool
  tLastPoll : Nat
  deriving Repr, DecidableEq

/-- uint32 subtraction `a - b` with wraparound, as in
`millis() - tLastPoll`. -/
def u32sub (a b : Nat) : Nat :=
  (a % 2 ^ 32 + (2 ^ 32 - b % 2 ^ 32)) % 2 ^ 32

/-- One sampling of the sensor: the interrupt-source register and the
distance/energy readings each path would obtain on demand. -/
structure SensorReads where
  intSrc : Nat
  irqDist : Nat
  irqEnergy : Nat
  pollDist : Nat
  pollEnergy : Nat
  deriving Repr, DecidableEq

/-- The interrupt block of `loop()` (main.cpp lines 689–724):
`AS3935_irq = irqFlag;` then, if the flag is set, clear it, read the
interrupt source into `lastEvent`, and if the code is nonzero pull
distance/energy, stamp with `now`, update the status fields and append
one record `{now, dist, energy, lastEvent, AS3935_irq}`. -/
def interruptPhase (s : SysState) (now : Int) (intSrc dist energy : Nat) : SysState :=
  let s0 := { s with as3935Irq := s.irqFlag }
  if s0.irqFlag then
    let s1 := { s0 with irqFlag := false, lastEvent := intSrc }
    if intSrc ≠ 0 then
      { s1 with
        lastDistance := dist
        lastEnergy := energy
        lastEventTs := now
        history := appendHistory s1.history ⟨now, dist, energy, intSrc, s1.as3935Irq⟩ }
    else s1
  else s0

/-- The 10 s poll block of `loop()` (main.cpp lines 727–744): when more
than 10000 ms elapsed since `tLastPoll` and `lastEvent > 0`, update
`tLastPoll`, re-sample distance/energy, overwrite the status fields,
append one record `{now, dist, energy, lastEvent, AS3935_irq}`, and
reset `lastEvent` to 0. -/
def pollPhase (s : SysState) (now : Int) (ms dist energy : Nat) : SysState :=
  if 10000 < u32sub ms s.tLastPoll then
    if 0 < s.lastEvent then
      { s with
        tLastPoll := ms
        lastDistance := dist
        lastEnergy := energy
        history := appendHistory s.history ⟨now, dist, energy, s.lastEvent, s.as3935Irq⟩
        lastEvent := 0 }
    else s
  else s

/-- One full `loop()` iteration: trim entries older than 24 h, then the
interrupt block, then the poll block. -/
def loopStep (s : SysState) (now : Int) (ms : Nat) (r : SensorReads) : SysState :=
  let s1 := { s with history := trimHistoryOlderThan (now - 24 * 3600) s.history }
  let s2 := interruptPhase s1 now r.intSrc r.irqDist r.irqEnergy
  pollPhase s2 now ms r.pollDist r.pollEnergy

/-- Whitespace as recognized by `isspace` in the C locale, used by
`atol` (which backs Arduino `String::toInt`). -/
def isSpaceChar (c : Char) : Bool :=
  c = ' ' || c = '\t' || c = '\n' || c = '\x0b' || c = '\x0c' || c = '\r'

/-- Leading-whitespace skip of `atol`. -/
def skipSpaces : List Char → List Char
  | [] => []
  | c :: rest => if isSpaceChar c then skipSpaces rest else c :: rest

/-- The digit-accumulation loop of `atol`: consume decimal digits from
the front, stop at the first non-digit. -/
def digitsValue : List Char → Nat → Nat
  | [], acc => acc
  | c :: rest, acc =>
    if c.isDigit then digitsValue rest (acc * 10 + (c.toNat - 48)) else acc

/-- Arduino `String::toInt` (i.e. `atol`): skip whitespace, optional
sign, then decimal digits; a string with no leading digits yields 0. -/
def strToInt (s : List Char) : Int :=
  match skipSpaces s with
  | [] => 0
  | c :: rest =>
    if c = '-' then -(digitsValue rest 0 : Int)
    else if c = '+' then (digitsValue rest 0 : Int)
    else (digitsValue (c :: rest) 0 : Int)

/-- The `since` handling of `handleEvents`: default 3600; when the
argument is present, `toInt` it and fall back to 3600 when ≤ 0. -/
def handleEventsWindow (since : Option (List Char)) : Int :=
  match since with
  | none => 3600
  | some s => if strToInt s ≤ 0 then 3600 else strToInt s

/-- The `range` handling of `handleStats`: `"day"` selects 24·3600,
anything else (including the empty string a missing argument yields)
selects 3600. -/
def handleStatsWindow (range : List Char) : Int :=
  if range = ['d', 'a', 'y'] then 24 * 3600 else 3600

/-- Embedding of `setLedsForDistance(km)`: the `switch (km)` over exact distance
codes; `l1..l4` start `false` and only the listed cases set them, so
every unlisted distance leaves all four LEDs off. -/
def setLedsForDistance (km : Nat) : Bool × Bool × Bool × Bool :=
  if km = 63 then (false, false, false, false)
  else if km = 40 then (true, false, false, false)
  else if km = 37 then (false, true, false, false)
  else if km = 34 then (true, true, false, false)
  else if km = 31 then (false, false, true, false)
  else if km = 27 then (true, false, true, false)
  else if km = 24 then (false, true, true, false)
  else if km = 20 then (true, true, true, false)
  else if km = 17 then (false, false, false, true)
  else if km = 14 then (true, false, false, true)
  else if km = 12 then (false, true, false, true)
  else if km = 10 then (true, true, false, true)
  else if km = 8 then (false, false, true, true)
  else if km = 6 then (true, false, true, true)
  else if km = 5 then (false, true, true, true)
  else if km = 1 then (true, true, true, true)
  else (false, false, false, false)

/-- The indicator mapping as the spec words it: an exact-match lookup
on the key set {1,5,6,8,10,12,14,17,20,24,27,31,34,37,40,63}, each key
with its fixed four-LED pattern (63 all-off), every unlisted distance
all-off. Stated independently of `setLedsForDistance` to compare the
two. -/
def ledRenderSpec (km : Nat) : Bool × Bool × Bool × Bool :=
  if km = 1 then (true, true, true, true)
  else if km = 5 then (false, true, true, true)
  else if km = 6 then (true, false, true, true)
  else if km = 8 then (false, false, true, true)
  else if km = 10 then (true, true, false, true)
  else if km = 12 then (false, true, false, true)
  else if km = 14 then (true, false, false, true)
  else if km = 17 then (false, false, false, true)
  else if km = 20 then (true, true, true, false)
  else if km = 24 then (false, true, true, false)
  else if km = 27 then (true, false, true, false)
  else if km = 31 then (false, false, true, false)
  else if km = 34 then (true, true, false, false)
  else if km = 37 then (false, true, false, false)
  else if km = 40 then (true, false, false, false)
  else if km = 63 then (false, false, false, false)
  else (false, false, false, false)

end LightningSensor

namespace LightningSensor

/- ### C1: bounded history, drop-oldest append -/

theorem appendHistoryCap_length_le (cap : Nat) (h : List LightningEvent)
    (e : LightningEvent) (hcap : 0 < cap) (hle : h.length ≤ cap) :
    (appendHistoryCap cap h e).length ≤ cap := by
  unfold appendHistoryCap
  split
  · rename_i hge
    have hdrop : (h.drop 1).length = h.length - 1 := by
      simp [List.length_drop]
    simp [List.length_append, hdrop]
    omega
  · rename_i hlt
    simp [List.length_append]
    omega

theorem appendHistoryCap_getLast (cap : Nat) (h : List LightningEvent)
    (e : LightningEvent) :
    (appendHistoryCap cap h e).getLast? = some e := by
  unfold appendHistoryCap
  split <;> simp [List.getLast?_append]

/-- Claim C1. Starting from any history within the cap, any sequence of
appends (the idiom used by both the interrupt path and the
poll-confirmation path) keeps `size ≤ HISTORY_MAX`; each appended
record ends up at the tail (it is never rejected); and with capacity 2,
appending A, B, C in order leaves exactly [B, C]. -/
theorem history_size_bounded (init : List LightningEvent)
    (es : List LightningEvent) (hinit : init.length ≤ HISTORY_MAX) :
    (es.foldl appendHistory init).length ≤ HISTORY_MAX ∧
    (∀ h : List LightningEvent, ∀ e : LightningEvent,
      (appendHistory h e).getLast? = some e) ∧
    (∀ A B C : LightningEvent,
      [A, B, C].foldl (appendHistoryCap 2) [] = [B, C]) := by
  refine ⟨?_, ?_, ?_⟩
  · induction es generalizing init with
    | nil => simpa using hinit
    | cons e rest ih =>
      simp only [List.foldl_cons]
      exact ih (appendHistory init e)
        (appendHistoryCap_length_le HISTORY_MAX init e (by norm_num [HISTORY_MAX]) hinit)
  · intro h e
    exact appendHistoryCap_getLast HISTORY_MAX h e
  · intro A B C
    simp [appendHistoryCap]

theorem history_size_bounded_witness :
    (List.length ([] : List LightningEvent) ≤ HISTORY_MAX) ∧
    (([⟨5, 10, 100, 8, true⟩].foldl appendHistory
        ([] : List LightningEvent)).length ≤ HISTORY_MAX) :=
  ⟨by decide,
   (history_size_bounded [] [⟨5, 10, 100, 8, true⟩] (by decide)).1⟩

/- ### C2: trim on sorted history = filter -/

theorem filter_eq_self_of_all {p : LightningEvent → Bool}
    (h : List LightningEvent) (hall : ∀ e ∈ h, p e = true) :
    h.filter p = h := by
  induction h with
  | nil => rfl
  | cons a rest ih =>
    have ha : p a = true := hall a (List.mem_cons_self a rest)
    simp [List.filter_cons, ha, ih (fun e he => hall e (List.mem_cons_of_mem a he))]

/-- Claim C2. On a history whose timestamps are non-decreasing,
`trimHistoryOlderThan cutoff` leaves exactly the entries with
`ts ≥ cutoff`, in their original order: the prefix trim equals a full
filter. -/
theorem trimHistory_eq_filter (h : List LightningEvent) (cutoff : Int)
    (hsorted : h.Pairwise (fun a b => a.ts ≤ b.ts)) :
    trimHistoryOlderThan cutoff h = h.filter (fun e => decide (cutoff ≤ e.ts)) := by
  induction h with
  | nil => rfl
  | cons a rest ih =>
    rcases List.pairwise_cons.mp hsorted with ⟨hhead, htail⟩
    by_cases hts : a.ts < cutoff
    · simp [trimHistoryOlderThan, hts, List.filter_cons, not_le.mpr hts, ih htail]
    · push_neg at hts
      have hall : ∀ e ∈ rest, (fun e : LightningEvent => decide (cutoff ≤ e.ts)) e = true := by
        intro e he
        simp only [decide_eq_true_eq]
        exact le_trans hts (hhead e he)
      simp [trimHistoryOlderThan, not_lt.mpr hts, List.filter_cons,
        hts, filter_eq_self_of_all rest hall]

theorem trimHistory_eq_filter_witness :
    trimHistoryOlderThan 3601 [⟨0, 3, 1, 8, true⟩, ⟨100, 63, 2, 8, true⟩,
        ⟨90000, 10, 3, 8, true⟩] =
      List.filter (fun e => decide ((3601 : Int) ≤ e.ts))
        [⟨0, 3, 1, 8, true⟩, ⟨100, 63, 2, 8, true⟩, ⟨90000, 10, 3, 8, true⟩] :=
  trimHistory_eq_filter _ 3601 (by decide)

/- ### C3: range query = filter, most-recent-first -/

theorem takeWhile_not_lt_eq_filter (c : Int) (l : List LightningEvent)
    (hsorted : l.Pairwise (fun a b => b.ts ≤ a.ts)) :
    l.takeWhile (fun e => !(decide (e.ts < c))) =
      l.filter (fun e => decide (c ≤ e.ts)) := by
  induction l with
  | nil => rfl
  | cons a rest ih =>
    rcases List.pairwise_cons.mp hsorted with ⟨hhead, htail⟩
    by_cases hts : a.ts < c
    · have hrest : rest.filter (fun e => decide (c ≤ e.ts)) = [] := by
        rw [List.filter_eq_nil_iff]
        intro b hb
        simp only [decide_eq_true_eq]
        push_neg
        exact lt_of_le_of_lt (hhead b hb) hts
      simp [List.takeWhile_cons, List.filter_cons, hts, not_le.mpr hts, hrest]
    · push_neg at hts
      simp [List.takeWhile_cons, List.filter_cons, not_lt.mpr hts, hts, ih htail]

/-- Claim C3. On a history with non-decreasing timestamps, the
`handleEvents` scan (reverse iteration, `break` at the first stale
entry) returns exactly the entries with `ts ≥ now - sinceSec`, in
most-recent-first (non-increasing timestamp) order; as a pure function
of the history it leaves the history value untouched. -/
theorem handleEvents_range_query (h : List LightningEvent) (now sinceSec : Int)
    (hsorted : h.Pairwise (fun a b => a.ts ≤ b.ts)) :
    handleEventsList h now sinceSec =
      (h.filter (fun e => decide (now - sinceSec ≤ e.ts))).reverse ∧
    (handleEventsList h now sinceSec).Pairwise (fun a b => b.ts ≤ a.ts) ∧
    (∀ e ∈ handleEventsList h now sinceSec, now - sinceSec ≤ e.ts) := by
  have hrev : h.reverse.Pairwise (fun a b : LightningEvent => b.ts ≤ a.ts) :=
    List.pairwise_reverse.mpr hsorted
  refine ⟨?_, ?_, ?_⟩
  · rw [handleEventsList, takeWhile_not_lt_eq_filter (now - sinceSec) h.reverse hrev,
      List.filter_reverse]
  · exact List.Pairwise.sublist (List.takeWhile_sublist _) hrev
  · intro e he
    have := List.mem_takeWhile_imp he
    simpa using this

theorem handleEvents_range_query_witness :
    handleEventsList
        [⟨6000, 1, 1, 8, true⟩, ⟨7000, 2, 2, 8, true⟩,
         ⟨9999, 3, 3, 8, true⟩, ⟨10000, 4, 4, 8, true⟩] 10000 3600 =
      [⟨10000, 4, 4, 8, true⟩, ⟨9999, 3, 3, 8, true⟩, ⟨7000, 2, 2, 8, true⟩] :=
  (handleEvents_range_query _ 10000 3600 (by decide)).1.trans (by decide)

/- ### C4: stats buckets partition the in-window entries -/

/-- The in-window test of the `handleStats` loop (`continue` skips
entries with `ts < now - sinceSec`). -/
def inWindow (now sinceSec : Int) (e : LightningEvent) : Bool :=
  !(decide (e.ts < now - sinceSec))

/-- Bucket predicate from the spec: `out_of_range`: distance == 63. -/
def bucketOor (now sinceSec : Int) (e : LightningEvent) : Bool :=
  inWindow now sinceSec e && decide (e.distance = 63)

/-- Bucket predicate from the spec: `near`: distance ≤ 5 (and ≠ 63). -/
def bucketNear (now sinceSec : Int) (e : LightningEvent) : Bool :=
  inWindow now sinceSec e && !(decide (e.distance = 63)) && decide (e.distance ≤ 5)

/-- Bucket predicate from the spec: `mid`: 6 ≤ distance ≤ 15. -/
def bucketMid (now sinceSec : Int) (e : LightningEvent) : Bool :=
  inWindow now sinceSec e && !(decide (e.distance = 63)) &&
    !(decide (e.distance ≤ 5)) && decide (e.distance ≤ 15)

/-- Bucket predicate from the spec: `far`: distance > 15 and ≠ 63. -/
def bucketFar (now sinceSec : Int) (e : LightningEvent) : Bool :=
  inWindow now sinceSec e && !(decide (e.distance = 63)) &&
    !(decide (e.distance ≤ 5)) && !(decide (e.distance ≤ 15))

theorem handleStats_foldl_char (now sinceSec : Int) (h : List LightningEvent)
    (c0 : StatsCounts) :
    h.foldl (fun c e => if e.ts < now - sinceSec then c else statsBucketStep c e) c0 =
      ⟨c0.cnt + h.countP (inWindow now sinceSec),
       c0.near + h.countP (bucketNear now sinceSec),
       c0.mid + h.countP (bucketMid now sinceSec),
       c0.far + h.countP (bucketFar now sinceSec),
       c0.oor + h.countP (bucketOor now sinceSec)⟩ := by
  induction h generalizing c0 with
  | nil => simp
  | cons e rest ih =>
    simp only [List.foldl_cons, List.countP_cons]
    rw [ih]
    by_cases h1 : e.ts < now - sinceSec
    · simp only [if_pos h1]
      simp [inWindow, bucketNear, bucketMid, bucketFar, bucketOor, h1]
    · simp only [if_neg h1]
      by_cases h2 : e.distance = 63
      · simp [inWindow, bucketNear, bucketMid, bucketFar, bucketOor,
          statsBucketStep, h1, h2]
        omega
      · by_cases h3 : e.distance ≤ 5
        · simp [inWindow, bucketNear, bucketMid, bucketFar, bucketOor,
            statsBucketStep, h1, h2, h3]
          omega
        · by_cases h4 : e.distance ≤ 15
          · simp [inWindow, bucketNear, bucketMid, bucketFar, bucketOor,
              statsBucketStep, h1, h2, h3, h4]
            omega
          · simp [inWindow, bucketNear, bucketMid, bucketFar, bucketOor,
              statsBucketStep, h1, h2, h3, h4]
            omega

theorem countP_buckets_partition (now sinceSec : Int) (h : List LightningEvent) :
    h.countP (bucketNear now sinceSec) + h.countP (bucketMid now sinceSec) +
      h.countP (bucketFar now sinceSec) + h.countP (bucketOor now sinceSec) =
      h.countP (inWindow now sinceSec) := by
  induction h with
  | nil => rfl
  | cons e rest ih =>
    simp only [List.countP_cons]
    by_cases h1 : (inWindow now sinceSec e) = true
    · by_cases h2 : e.distance = 63
      · simp [bucketNear, bucketMid, bucketFar, bucketOor, h1, h2]
        omega
      · by_cases h3 : e.distance ≤ 5
        · simp [bucketNear, bucketMid, bucketFar, bucketOor, h1, h2, h3]
          omega
        · by_cases h4 : e.distance ≤ 15
          · simp [bucketNear, bucketMid, bucketFar, bucketOor, h1, h2, h3, h4]
            omega
          · simp [bucketNear, bucketMid, bucketFar, bucketOor, h1, h2, h3, h4]
            omega
    · simp only [Bool.not_eq_true] at h1
      simp [bucketNear, bucketMid, bucketFar, bucketOor, h1]
      omega

/-- Claim C4. For every history and window, `handleStats` counts each
in-window entry in exactly one of the four buckets (out_of_range if
distance == 63, else near if ≤ 5, else mid if ≤ 15, else far), and the
four bucket counts sum exactly to the reported total count. -/
theorem handleStats_partition (h : List LightningEvent) (now sinceSec : Int) :
    (handleStatsCounts h now sinceSec).cnt = h.countP (inWindow now sinceSec) ∧
    (handleStatsCounts h now sinceSec).oor = h.countP (bucketOor now sinceSec) ∧
    (handleStatsCounts h now sinceSec).near = h.countP (bucketNear now sinceSec) ∧
    (handleStatsCounts h now sinceSec).mid = h.countP (bucketMid now sinceSec) ∧
    (handleStatsCounts h now sinceSec).far = h.countP (bucketFar now sinceSec) ∧
    (handleStatsCounts h now sinceSec).near + (handleStatsCounts h now sinceSec).mid +
        (handleStatsCounts h now sinceSec).far + (handleStatsCounts h now sinceSec).oor =
      (handleStatsCounts h now sinceSec).cnt := by
  have hchar := handleStats_foldl_char now sinceSec h ⟨0, 0, 0, 0, 0⟩
  have hsum := countP_buckets_partition now sinceSec h
  unfold handleStatsCounts
  rw [hchar]
  simp only [Nat.zero_add]
  exact ⟨trivial, trivial, trivial, trivial, trivial, hsum⟩

/- ### C5: interrupt path appends one stamped record iff code nonzero -/

/-- Claim C5. In a cycle where the interrupt flag was observed set: a
nonzero interrupt-source code makes the interrupt block append exactly
one record — stamped with the processing-time clock `now`, carrying the
sensor distance, energy and the raw code, `irq = true` — and update
`lastDistance` / `lastEnergy` / `lastEventTs` / `lastEvent`; a zero
code appends nothing and leaves the history unchanged. -/
theorem interrupt_cycle_append (s : SysState) (now : Int)
    (intSrc dist energy : Nat) (hflag : s.irqFlag = true) :
    (intSrc ≠ 0 →
      (interruptPhase s now intSrc dist energy).history =
        appendHistory s.history ⟨now, dist, energy, intSrc, true⟩ ∧
      (interruptPhase s now intSrc dist energy).lastDistance = dist ∧
      (interruptPhase s now intSrc dist energy).lastEnergy = energy ∧
      (interruptPhase s now intSrc dist energy).lastEventTs = now ∧
      (interruptPhase s now intSrc dist energy).lastEvent = intSrc) ∧
    (intSrc = 0 →
      (interruptPhase s now intSrc dist energy).history = s.history ∧
      (interruptPhase s now intSrc dist energy).lastEvent = 0) := by
  constructor
  · intro hne
    simp [interruptPhase, hflag, hne]
  · intro h0
    simp [interruptPhase, hflag, h0]

theorem interrupt_cycle_append_witness :
    (interruptPhase ⟨[], 63, 0, 0, 0, false, true, 0⟩ 1000 8 12 500).history =
      appendHistory [] ⟨1000, 12, 500, 8, true⟩ ∧
    (interruptPhase ⟨[], 63, 0, 0, 0, false, true, 0⟩ 1000 0 12 500).history = [] :=
  ⟨((interrupt_cycle_append ⟨[], 63, 0, 0, 0, false, true, 0⟩ 1000 8 12 500
      rfl).1 (by decide)).1,
   ((interrupt_cycle_append ⟨[], 63, 0, 0, 0, false, true, 0⟩ 1000 0 12 500
      rfl).2 rfl).1⟩

/- ### C6: poll-confirmation path -/

theorem trimHistory_eq_self (cutoff : Int) (h : List LightningEvent)
    (hall : ∀ e ∈ h, cutoff ≤ e.ts) : trimHistoryOlderThan cutoff h = h := by
  cases h with
  | nil => rfl
  | cons a rest =>
    simp [trimHistoryOlderThan, not_lt.mpr (hall a (List.mem_cons_self a rest))]

theorem appendHistory_eq_concat (h : List LightningEvent) (e : LightningEvent)
    (hlen : h.length < HISTORY_MAX) : appendHistory h e = h ++ [e] := by
  unfold appendHistory appendHistoryCap
  rw [if_neg (by omega)]

/-- Claim C6. When more than 10 s (10000 ms) have elapsed since the last
poll and `lastEvent` is still nonzero, the poll block re-samples
distance/energy, appends exactly one additional entry (carrying the
pending code) and resets `lastEvent` to 0; when `lastEvent` is zero it
changes nothing. In a full cycle where the interrupt fires with a
nonzero code and the poll interval has also elapsed, the history gains
two entries for the single interrupt-sourced event. -/
theorem poll_confirmation (s : SysState) (now : Int) (ms dist energy : Nat)
    (helapsed : 10000 < u32sub ms s.tLastPoll) :
    (0 < s.lastEvent →
      (pollPhase s now ms dist energy).history =
        appendHistory s.history ⟨now, dist, energy, s.lastEvent, s.as3935Irq⟩ ∧
      (pollPhase s now ms dist energy).lastEvent = 0 ∧
      (pollPhase s now ms dist energy).lastDistance = dist ∧
      (pollPhase s now ms dist energy).lastEnergy = energy) ∧
    (s.lastEvent = 0 → pollPhase s now ms dist energy = s) ∧
    (∀ r : SensorReads, s.irqFlag = true → r.intSrc ≠ 0 →
      (∀ e ∈ s.history, now - 24 * 3600 ≤ e.ts) →
      s.history.length + 2 ≤ HISTORY_MAX →
      (loopStep s now ms r).history =
        s.history ++ [⟨now, r.irqDist, r.irqEnergy, r.intSrc, true⟩,
                      ⟨now, r.pollDist, r.pollEnergy, r.intSrc, true⟩]) := by
  refine ⟨?_, ?_, ?_⟩
  · intro hpos
    simp [pollPhase, helapsed, hpos]
  · intro h0
    simp [pollPhase, helapsed, h0]
  · intro r hirq hne htrim hlen
    unfold loopStep
    rw [trimHistory_eq_self _ _ htrim]
    dsimp only
    have hint :
        interruptPhase { s with history := s.history } now r.intSrc r.irqDist
            r.irqEnergy =
          { s with
            as3935Irq := true
            irqFlag := false
            lastEvent := r.intSrc
            lastDistance := r.irqDist
            lastEnergy := r.irqEnergy
            lastEventTs := now
            history :=
              appendHistory s.history
                ⟨now, r.irqDist, r.irqEnergy, r.intSrc, true⟩ } := by
      simp [interruptPhase, hirq, hne]
    rw [hint]
    have happ1 :
        appendHistory s.history ⟨now, r.irqDist, r.irqEnergy, r.intSrc, true⟩ =
          s.history ++ [⟨now, r.irqDist, r.irqEnergy, r.intSrc, true⟩] :=
      appendHistory_eq_concat _ _ (by omega)
    have hpos : 0 < r.intSrc := Nat.pos_of_ne_zero hne
    simp only [pollPhase, helapsed, if_pos, hpos]
    simp only [happ1]
    rw [appendHistory_eq_concat _ _ (by simp [List.length_append]; omega)]
    simp

theorem poll_confirmation_witness :
    (pollPhase ⟨[], 63, 0, 50, 8, true, false, 0⟩ 2000 20000 10 99).history =
      appendHistory [] ⟨2000, 10, 99, 8, true⟩ ∧
    (pollPhase ⟨[], 63, 0, 50, 0, true, false, 0⟩ 2000 20000 10 99) =
      ⟨[], 63, 0, 50, 0, true, false, 0⟩ ∧
    (loopStep ⟨[], 63, 0, 0, 0, false, true, 0⟩ 2000 20000 ⟨8, 12, 500, 14, 600⟩).history =
      [⟨2000, 12, 500, 8, true⟩, ⟨2000, 14, 600, 8, true⟩] :=
  ⟨((poll_confirmation ⟨[], 63, 0, 50, 8, true, false, 0⟩ 2000 20000 10 99
      (by decide)).1 (by decide)).1,
   (poll_confirmation ⟨[], 63, 0, 50, 0, true, false, 0⟩ 2000 20000 10 99
      (by decide)).2.1 rfl,
   ((poll_confirmation ⟨[], 63, 0, 0, 0, false, true, 0⟩ 2000 20000 14 600
      (by decide)).2.2 ⟨8, 12, 500, 14, 600⟩ rfl (by decide)
      (by intro e he; simp at he) (by decide)).trans (by simp)⟩

/- ### C10: poll path leaves lastEventTs unchanged -/

/-- The `last_event_ts` field that `handleLive` serializes: it reads
the global `lastEventTs` directly. -/
def liveLastEventTs (s : SysState) : Int := s.lastEventTs

/-- Claim C10. The poll-confirmation block never writes `lastEventTs`:
even when it appends a history entry and overwrites `lastDistance`,
`lastEnergy` and `lastEvent`, the `last_event_ts` reported by
`handleLive` still carries the timestamp of the earlier
interrupt-stamped event. -/
theorem poll_preserves_lastEventTs (s : SysState) (now : Int)
    (ms dist energy : Nat) :
    liveLastEventTs (pollPhase s now ms dist energy) = liveLastEventTs s ∧
    (pollPhase s now ms dist energy).lastEventTs = s.lastEventTs ∧
    (10000 < u32sub ms s.tLastPoll → 0 < s.lastEvent →
      (pollPhase s now ms dist energy).history =
        appendHistory s.history ⟨now, dist, energy, s.lastEvent, s.as3935Irq⟩ ∧
      (pollPhase s now ms dist energy).lastDistance = dist ∧
      (pollPhase s now ms dist energy).lastEnergy = energy ∧
      (pollPhase s now ms dist energy).lastEvent = 0) := by
  refine ⟨?_, ?_, ?_⟩
  · unfold liveLastEventTs pollPhase
    split <;> [skip; rfl]
    split <;> rfl
  · unfold pollPhase
    split <;> [skip; rfl]
    split <;> rfl
  · intro helapsed hpos
    simp [pollPhase, helapsed, hpos]

theorem poll_preserves_lastEventTs_witness :
    liveLastEventTs (pollPhase ⟨[], 63, 0, 777, 8, true, false, 0⟩ 2000 20000 10 99) =
      777 ∧
    (pollPhase ⟨[], 63, 0, 777, 8, true, false, 0⟩ 2000 20000 10 99).lastEvent = 0 :=
  ⟨(poll_preserves_lastEventTs ⟨[], 63, 0, 777, 8, true, false, 0⟩ 2000 20000 10 99).1,
   ((poll_preserves_lastEventTs ⟨[], 63, 0, 777, 8, true, false, 0⟩ 2000 20000 10 99).2.2
      (by decide) (by decide)).2.2.2⟩

/- ### C7: trim is idempotent, no ordering precondition -/

/-- Claim C7. For every history state and cutoff,
`trimHistoryOlderThan` applied twice with the same cutoff equals a
single application — with no precondition on timestamp order. -/
theorem trimHistory_idempotent (h : List LightningEvent) (cutoff : Int) :
    trimHistoryOlderThan cutoff (trimHistoryOlderThan cutoff h) =
      trimHistoryOlderThan cutoff h := by
  induction h with
  | nil => rfl
  | cons a rest ih =>
    by_cases hts : a.ts < cutoff
    · simp [trimHistoryOlderThan, hts, ih]
    · simp [trimHistoryOlderThan, hts]

/- ### C8: silent fallback for malformed window parameters -/

theorem mem_skipSpaces (s : List Char) : ∀ c ∈ skipSpaces s, c ∈ s := by
  induction s with
  | nil => intro c hc; exact hc
  | cons a rest ih =>
    intro c hc
    by_cases ha : isSpaceChar a
    · rw [skipSpaces, if_pos ha] at hc
      exact List.mem_cons_of_mem a (ih c hc)
    · rwa [skipSpaces, if_neg ha] at hc

theorem digitsValue_eq_acc (l : List Char)
    (hl : ∀ c ∈ l, c.isDigit = false) (acc : Nat) : digitsValue l acc = acc := by
  cases l with
  | nil => rfl
  | cons c rest => simp [digitsValue, hl c (List.mem_cons_self c rest)]

theorem strToInt_eq_zero_of_no_digit (s : List Char)
    (hnd : ∀ c ∈ s, c.isDigit = false) : strToInt s = 0 := by
  have hsub := mem_skipSpaces s
  unfold strToInt
  cases hsk : skipSpaces s with
  | nil => rfl
  | cons c rest =>
    have hrest : ∀ x ∈ rest, x.isDigit = false := by
      intro x hx
      exact hnd x (hsub x (hsk ▸ List.mem_cons_of_mem c hx))
    have hcr : ∀ x ∈ c :: rest, x.isDigit = false := by
      intro x hx
      exact hnd x (hsub x (hsk ▸ hx))
    by_cases hc1 : c = '-'
    · simp [hc1, digitsValue_eq_acc rest hrest]
    · by_cases hc2 : c = '+'
      · simp [hc1, hc2, digitsValue_eq_acc rest hrest]
      · simp [hc1, hc2, digitsValue_eq_acc (c :: rest) hcr]

/-- Claim C8. Malformed or non-positive window parameters fall back
silently to the defaults: `handleEvents` uses 3600 s whenever `since`
is absent or parses (via `toInt`, which maps digit-free strings to 0)
to a value ≤ 0, and only uses the parsed value when it is positive;
`handleStats` uses 86400 s exactly for `range = "day"` and 3600 s for
every other value. -/
theorem query_param_fallbacks :
    handleEventsWindow none = 3600 ∧
    (∀ s : List Char, strToInt s ≤ 0 → handleEventsWindow (some s) = 3600) ∧
    (∀ s : List Char, (∀ c ∈ s, c.isDigit = false) → strToInt s = 0) ∧
    (∀ s : List Char, 0 < strToInt s → handleEventsWindow (some s) = strToInt s) ∧
    handleStatsWindow ['d', 'a', 'y'] = 86400 ∧
    (∀ s : List Char, s ≠ ['d', 'a', 'y'] → handleStatsWindow s = 3600) := by
  refine ⟨rfl, ?_, ?_, ?_, rfl, ?_⟩
  · intro s h
    simp [handleEventsWindow, h]
  · exact strToInt_eq_zero_of_no_digit
  · intro s h
    simp [handleEventsWindow, not_le.mpr h]
  · intro s hne
    simp [handleStatsWindow, hne]

theorem query_param_fallbacks_witness :
    handleEventsWindow (some ['a', 'b', 'c']) = 3600 ∧
    strToInt ['a', 'b', 'c'] = 0 ∧
    handleEventsWindow (some ['-', '5']) = 3600 ∧
    handleEventsWindow (some ['4', '2']) = 42 ∧
    handleStatsWindow ['w', 'e', 'e', 'k'] = 3600 :=
  ⟨query_param_fallbacks.2.1 ['a', 'b', 'c'] (by decide),
   query_param_fallbacks.2.2.1 ['a', 'b', 'c'] (by decide),
   query_param_fallbacks.2.1 ['-', '5'] (by decide),
   (query_param_fallbacks.2.2.2.1 ['4', '2'] (by decide)).trans (by decide),
   query_param_fallbacks.2.2.2.2.2 ['w', 'e', 'e', 'k'] (by decide)⟩

/- ### C9: LED mapping is an exact-match table -/

/-- Claim C9. The function `setLedsForDistance` equals the spec's exact-match lookup
table on {1,5,6,8,10,12,14,17,20,24,27,31,34,37,40,63}: each listed
key yields its fixed pattern (63 all-off), and every distance outside
the key set — including 0, the storm-overhead code — yields all four
LEDs off; no range or nearest-bucket interpretation. -/
theorem led_lookup_exact (km : Nat) :
    setLedsForDistance km = ledRenderSpec km ∧
    (km ∉ ([1, 5, 6, 8, 10, 12, 14, 17, 20, 24, 27, 31, 34, 37, 40, 63] : List Nat) →
      setLedsForDistance km = (false, false, false, false)) := by
  constructor
  · rcases lt_or_le km 64 with h | h
    · interval_cases km <;> rfl
    · have h1 : km ≠ 1 := by omega
      have h5 : km ≠ 5 := by omega
      have h6 : km ≠ 6 := by omega
      have h8 : km ≠ 8 := by omega
      have h10 : km ≠ 10 := by omega
      have h12 : km ≠ 12 := by omega
      have h14 : km ≠ 14 := by omega
      have h17 : km ≠ 17 := by omega
      have h20 : km ≠ 20 := by omega
      have h24 : km ≠ 24 := by omega
      have h27 : km ≠ 27 := by omega
      have h31 : km ≠ 31 := by omega
      have h34 : km ≠ 34 := by omega
      have h37 : km ≠ 37 := by omega
      have h40 : km ≠ 40 := by omega
      have h63 : km ≠ 63 := by omega
      simp [setLedsForDistance, ledRenderSpec, h1, h5, h6, h8, h10, h12, h14,
        h17, h20, h24, h27, h31, h34, h37, h40, h63]
  · intro hn
    simp only [List.mem_cons, List.not_mem_nil, or_false, not_or] at hn
    obtain ⟨h1, h5, h6, h8, h10, h12, h14, h17, h20, h24, h27, h31, h34, h37,
      h40, h63⟩ := hn
    simp [setLedsForDistance, h1, h5, h6, h8, h10, h12, h14, h17, h20, h24,
      h27, h31, h34, h37, h40, h63]

theorem led_lookup_exact_witness :
    setLedsForDistance 0 = (false, false, false, false) ∧
    setLedsForDistance 1 = ledRenderSpec 1 :=
  ⟨(led_lookup_exact 0).2 (by decide), (led_lookup_exact 1).1⟩

end LightningSensor
